import Mathlib

/-
Verification development for the hpcloud compute bindings (compute.go).
The Server type and its MarshalJSON encoder are embedded as pure Lean
functions; the Go bytes.Buffer is modelled by threading a String, the Go
map iteration over Metadata is modelled by a list of key/value pairs in
iteration order, and Go ints are modelled as Int.
-/

/-- Go type Link (compute.go): an href/rel pair. -/
structure Link where
  HREF : String
  Rel : String

/-- Go type IDLink (compute.go): name, id and links. MarshalJSON reads only Name. -/
structure IDLink where
  Name : String
  ID : String
  Links : List Link

/-- Go type Server (compute.go lines 89-101). Numeric Go ints are modelled as
Int; the Metadata map is modelled by its iteration order, a list of
key/value pairs. -/
structure Server where
  ConfigDrive : Bool
  FlavorRef : Int
  ImageRef : Int
  MaxCount : Int
  MinCount : Int
  Name : String
  Key : String
  Personality : String
  UserData : String
  SecurityGroups : List IDLink
  Metadata : List (String × String)

/-- Go len() on a string counts UTF-8 bytes. -/
def goLen (s : String) : Nat := s.utf8ByteSize

/-- Optional personality fragment (compute.go lines 324-326). The Go format
string carries a trailing comma after the closing quote. -/
def personalitySeg (s : Server) : String :=
  if s.Personality ≠ "" then ",\"personality\":\"" ++ s.Personality ++ "\"," else ""

/-- Optional key_name fragment (compute.go lines 327-329). -/
def keySeg (s : Server) : String :=
  if s.Key ≠ "" then ",\"key_name\":\"" ++ s.Key ++ "\"" else ""

/-- Optional config_drive fragment (compute.go lines 330-332). -/
def configDriveSeg (s : Server) : String :=
  if s.ConfigDrive then ",\"config_drive\": true" else ""

/-- Optional min_count fragment (compute.go lines 333-335). -/
def minCountSeg (s : Server) : String :=
  if s.MinCount > 0 then ",\"min_count\":" ++ toString s.MinCount else ""

/-- Optional max_count fragment (compute.go lines 336-338). -/
def maxCountSeg (s : Server) : String :=
  if s.MaxCount > 0 then ",\"max_count\":" ++ toString s.MaxCount else ""

/-- Optional user_data fragment (compute.go lines 339-344). The Go code
allocates newb with make([]byte, 0, len(s.UserData)), so newb has length
zero, and then calls base64.StdEncoding.Encode([]byte(s.UserData), newb)
with destination and source swapped: the empty slice newb is encoded and
nothing is ever written into it, so string(newb) is the empty string.
The format string also carries a trailing comma. -/
def userDataSeg (s : Server) : String :=
  if s.UserData ≠ "" then
    let newb : String := ""
    ",\"user_data\": \"" ++ newb ++ "\","
  else ""

/-- Metadata range loop (compute.go lines 350-359): each entry is written as
a quoted key, colon-space, quoted value; cnt starts at 0 and is incremented
only when a comma is written, and the closing brace is written at the entry
where cnt + 1 equals the map size. -/
def metadataLoop (total : Nat) : Nat → List (String × String) → String
  | _, [] => ""
  | cnt, kv :: rest =>
    let piece := "\"" ++ kv.1 ++ "\": \"" ++ kv.2 ++ "\""
    if cnt + 1 ≠ total then piece ++ "," ++ metadataLoop total (cnt + 1) rest
    else piece ++ "\x7d" ++ metadataLoop total cnt rest

/-- Optional metadata fragment (compute.go lines 347-360). -/
def metadataSeg (s : Server) : String :=
  if s.Metadata.length > 0 then
    ",\"metadata\":\x7b" ++ metadataLoop s.Metadata.length 0 s.Metadata
  else ""

/-- Security groups loop (compute.go lines 364-373), same counter scheme as
the metadata loop, entries rendered as single-field name objects. -/
def securityGroupsLoop (total : Nat) : Nat → List IDLink → String
  | _, [] => ""
  | cnt, sg :: rest =>
    let piece := "\x7b\"name\": \"" ++ sg.Name ++ "\"\x7d"
    if cnt + 1 ≠ total then piece ++ "," ++ securityGroupsLoop total (cnt + 1) rest
    else piece ++ "]" ++ securityGroupsLoop total cnt rest

/-- Optional security_groups fragment (compute.go lines 361-374). -/
def securityGroupsSeg (s : Server) : String :=
  if s.SecurityGroups.length > 0 then
    ",\"security_groups\":[" ++ securityGroupsLoop s.SecurityGroups.length 0 s.SecurityGroups
  else ""

/-- Go MarshalJSON on Server (compute.go lines 296-377). The pair returned is
the produced bytes and the error: Go returns ([]byte given no content, err)
on a validation failure and (buffer bytes, nil) on success. -/
def Server.MarshalJSON (s : Server) : String × Option String :=
  let b := "\x7b\"server\":\x7b"
  if s.FlavorRef < 100 ∨ s.FlavorRef > 105 then
    ("", some "Flavor Reference refers to a non-existant flavour.")
  else
  let b := b ++ "\"flavorRef\":" ++ toString s.FlavorRef
  if s.ImageRef = 0 then
    ("", some "An image name is required.")
  else
  let b := b ++ ",\"imageRef\":" ++ toString s.ImageRef
  if s.Name = "" then
    ("", some "A name is required")
  else
  let b := b ++ ",\"name\":\"" ++ s.Name ++ "\""
  if goLen s.Personality > 255 then
    ("", some "Server\x27s personality cannot have >255 bytes.")
  else
  let b := b ++ personalitySeg s
  let b := b ++ keySeg s
  let b := b ++ configDriveSeg s
  let b := b ++ minCountSeg s
  let b := b ++ maxCountSeg s
  let b := b ++ userDataSeg s
  let b := b ++ metadataSeg s
  let b := b ++ securityGroupsSeg s
  (b ++ "\x7d\x7d", none)

/-- Go CreateServer (compute.go lines 140-158): marshal the Server; on a
marshal error return that error without touching the network, otherwise
POST the bytes. The transport (baseComputeRequest plus response decoding)
is abstracted as a function argument; the second component of the result
counts how many transport calls were made. -/
def CreateServer (transport : String → Except String String) (s : Server) :
    Except String String × Nat :=
  match s.MarshalJSON with
  | (_, some e) => (Except.error e, 0)
  | (body, none) => (transport body, 1)

/-- Whitespace skipper for the JSON well-formedness checker. -/
def skipWs : List Char → List Char
  | [] => []
  | c :: cs => if c = ' ' ∨ c = '\n' ∨ c = '\t' ∨ c = '\r' then skipWs cs else c :: cs

/-- Hexadecimal digit test, used for unicode escapes in JSON strings. -/
def isHexDigit (c : Char) : Bool :=
  decide (('0' ≤ c ∧ c ≤ '9') ∨ ('a' ≤ c ∧ c ≤ 'f') ∨ ('A' ≤ c ∧ c ≤ 'F'))

/-- Remainder parser for a JSON string, entered after the opening quote:
accepts ordinary characters and the standard escapes, returns the input
following the closing quote. -/
def parseStringRest : List Char → Option (List Char)
  | [] => none
  | '"' :: cs => some cs
  | '\\' :: 'u' :: h1 :: h2 :: h3 :: h4 :: cs =>
    if isHexDigit h1 && isHexDigit h2 && isHexDigit h3 && isHexDigit h4 then
      parseStringRest cs
    else none
  | '\\' :: e :: cs =>
    if e = '"' ∨ e = '\\' ∨ e = '/' ∨ e = 'b' ∨ e = 'f' ∨ e = 'n' ∨ e = 'r' ∨ e = 't' then
      parseStringRest cs
    else none
  | _ :: cs => parseStringRest cs

/-- Splits a leading run of decimal digits from the input. -/
def spanDigits : List Char → List Char × List Char
  | [] => ([], [])
  | c :: cs =>
    if '0' ≤ c ∧ c ≤ '9' then
      let r := spanDigits cs
      (c :: r.1, r.2)
    else ([], c :: cs)

/-- Validator for a JSON number: optional sign, at least one digit, optional
fraction and exponent. -/
def parseNumber (cs : List Char) : Option (List Char) :=
  let cs1 := match cs with | '-' :: t => t | _ => cs
  match spanDigits cs1 with
  | ([], _) => none
  | (_ :: _, rest) =>
    let rest2 : Option (List Char) :=
      match rest with
      | '.' :: t =>
        (match spanDigits t with
         | ([], _) => none
         | (_ :: _, r) => some r)
      | _ => some rest
    match rest2 with
    | none => none
    | some r3 =>
      match r3 with
      | e :: t =>
        if e = 'e' ∨ e = 'E' then
          let t2 := match t with
            | sgn :: t3 => if sgn = '+' ∨ sgn = '-' then t3 else sgn :: t3
            | [] => []
          match spanDigits t2 with
          | ([], _) => none
          | (_ :: _, r4) => some r4
        else some r3
      | [] => some r3

mutual

/-- Validator for one JSON value; returns the unconsumed remainder. -/
def parseValue : Nat → List Char → Option (List Char)
  | 0, _ => none
  | fuel + 1, cs =>
    match skipWs cs with
    | '\x7b' :: rest => parseMembers fuel (skipWs rest) true
    | '[' :: rest => parseElements fuel (skipWs rest) true
    | '"' :: rest => parseStringRest rest
    | 't' :: 'r' :: 'u' :: 'e' :: rest => some rest
    | 'f' :: 'a' :: 'l' :: 's' :: 'e' :: rest => some rest
    | 'n' :: 'u' :: 'l' :: 'l' :: rest => some rest
    | other => parseNumber other

/-- Validator for the members of a JSON object, entered after the opening
brace; allowEnd is true only when no member has been consumed yet, so a
closing brace right after a comma is rejected. -/
def parseMembers : Nat → List Char → Bool → Option (List Char)
  | 0, _, _ => none
  | fuel + 1, cs, allowEnd =>
    match cs with
    | '\x7d' :: rest => if allowEnd then some rest else none
    | '"' :: rest =>
      match parseStringRest rest with
      | none => none
      | some cs2 =>
        match skipWs cs2 with
        | ':' :: cs3 =>
          match parseValue fuel (skipWs cs3) with
          | none => none
          | some cs4 =>
            match skipWs cs4 with
            | ',' :: cs5 => parseMembers fuel (skipWs cs5) false
            | '\x7d' :: cs5 => some cs5
            | _ => none
        | _ => none
    | _ => none

/-- Validator for the elements of a JSON array, entered after the opening
bracket; allowEnd is true only before the first element. -/
def parseElements : Nat → List Char → Bool → Option (List Char)
  | 0, _, _ => none
  | fuel + 1, cs, allowEnd =>
    match cs with
    | ']' :: rest => if allowEnd then some rest else none
    | _ =>
      match parseValue fuel cs with
      | none => none
      | some cs2 =>
        match skipWs cs2 with
        | ',' :: cs3 => parseElements fuel (skipWs cs3) false
        | ']' :: cs3 => some cs3
        | _ => none

end

/-- Structural well-formedness of a JSON text: exactly one JSON value
spanning the whole input, with balanced and properly closed braces,
brackets and separators. -/
def jsonValid (s : String) : Bool :=
  match parseValue (s.data.length + 1) s.data with
  | some rest => (skipWs rest).isEmpty
  | none => false

/-- Standard base64 alphabet (RFC 4648), as used by the Go package
encoding/base64 in its StdEncoding. -/
def base64Alphabet : List Char :=
  ("ABCDEFGHIJKLMNOPQRSTUVWXYZabcdefghijklmnopqrstuvwxyz0123456789+/").data

/-- Digit lookup in the standard base64 alphabet. -/
def base64Digit (n : Nat) : Char := base64Alphabet.getD n 'A'

/-- Standard base64 of a byte sequence, with padding (RFC 4648 section 4). -/
def base64EncodeBytes : List Nat → List Char
  | b1 :: b2 :: b3 :: rest =>
    base64Digit (b1 / 4) :: base64Digit (b1 % 4 * 16 + b2 / 16) ::
    base64Digit (b2 % 16 * 4 + b3 / 64) :: base64Digit (b3 % 64) ::
    base64EncodeBytes rest
  | [b1, b2] => [base64Digit (b1 / 4), base64Digit (b1 % 4 * 16 + b2 / 16),
                 base64Digit (b2 % 16 * 4), '=']
  | [b1] => [base64Digit (b1 / 4), base64Digit (b1 % 4 * 16), '=', '=']
  | [] => []

/-- Bytes of an ASCII string: each character below 128 is one UTF-8 byte. -/
def asciiBytes (s : String) : List Nat := s.data.map (fun c => c.toNat)

/-- Boolean prefix test on character lists. -/
def listPrefixOf : List Char → List Char → Bool
  | [], _ => true
  | _ :: _, [] => false
  | a :: as, b :: bs => a = b && listPrefixOf as bs

/-- Boolean substring-occurrence test on character lists. -/
def occursIn : List Char → List Char → Bool
  | needle, [] => listPrefixOf needle []
  | needle, c :: t => listPrefixOf needle (c :: t) || occursIn needle t

/-- Required part of the payload: the object opener and the three required
fields in their fixed order, exactly as MarshalJSON writes them. -/
def requiredPrefix (s : Server) : String :=
  "\x7b\"server\":\x7b" ++ "\"flavorRef\":" ++ toString s.FlavorRef ++
    ",\"imageRef\":" ++ toString s.ImageRef ++ ",\"name\":\"" ++ s.Name ++ "\""

/-- Payload produced by MarshalJSON when every validation passes. -/
def payloadOf (s : Server) : String :=
  requiredPrefix s ++ personalitySeg s ++ keySeg s ++ configDriveSeg s ++
    minCountSeg s ++ maxCountSeg s ++ userDataSeg s ++ metadataSeg s ++
    securityGroupsSeg s ++ "\x7d\x7d"

/-- Closed form of MarshalJSON: the four validations in source order, then
the full payload. -/
theorem MarshalJSON_eq (s : Server) :
    s.MarshalJSON =
      if s.FlavorRef < 100 ∨ s.FlavorRef > 105 then
        ("", some "Flavor Reference refers to a non-existant flavour.")
      else if s.ImageRef = 0 then
        ("", some "An image name is required.")
      else if s.Name = "" then
        ("", some "A name is required")
      else if goLen s.Personality > 255 then
        ("", some "Server\x27s personality cannot have >255 bytes.")
      else (payloadOf s, none) := rfl

/-- MarshalJSON on a Server passing all validations. -/
theorem MarshalJSON_ok (s : Server) (h1 : ¬(s.FlavorRef < 100 ∨ s.FlavorRef > 105))
    (h2 : ¬s.ImageRef = 0) (h3 : ¬s.Name = "") (h4 : ¬goLen s.Personality > 255) :
    s.MarshalJSON = (payloadOf s, none) := by
  rw [MarshalJSON_eq, if_neg h1, if_neg h2, if_neg h3, if_neg h4]

/-- Error component of MarshalJSON, independent of the optional fields. -/
theorem MarshalJSON_snd (s : Server) :
    (s.MarshalJSON).2 =
      if s.FlavorRef < 100 ∨ s.FlavorRef > 105 then
        some "Flavor Reference refers to a non-existant flavour."
      else if s.ImageRef = 0 then some "An image name is required."
      else if s.Name = "" then some "A name is required"
      else if goLen s.Personality > 255 then
        some "Server\x27s personality cannot have >255 bytes."
      else none := by
  rw [MarshalJSON_eq]
  by_cases h1 : s.FlavorRef < 100 ∨ s.FlavorRef > 105 <;>
    by_cases h2 : s.ImageRef = 0 <;>
      by_cases h3 : s.Name = "" <;>
        by_cases h4 : goLen s.Personality > 255 <;>
          simp [h1, h2, h3, h4]

/-- A concatenation whose left part is nonempty is nonempty. -/
theorem append_left_ne_empty (a b : String) (h : a ≠ "") : a ++ b ≠ "" := by
  intro hEq
  apply h
  have hd : a.data ++ b.data = ([] : List Char) := by
    have := congrArg String.data hEq
    simpa using this
  exact String.ext (List.append_eq_nil.mp hd).1

/-- Emission condition for the personality fragment. -/
theorem personalitySeg_eq_empty_iff (s : Server) :
    personalitySeg s = "" ↔ s.Personality = "" := by
  rcases eq_or_ne s.Personality "" with h | h
  · simp [personalitySeg, h]
  · simp only [personalitySeg, if_pos h]
    exact iff_of_false
      (append_left_ne_empty _ _ (append_left_ne_empty _ _ (by decide))) h

/-- Emission condition for the key_name fragment. -/
theorem keySeg_eq_empty_iff (s : Server) : keySeg s = "" ↔ s.Key = "" := by
  rcases eq_or_ne s.Key "" with h | h
  · simp [keySeg, h]
  · simp only [keySeg, if_pos h]
    exact iff_of_false
      (append_left_ne_empty _ _ (append_left_ne_empty _ _ (by decide))) h

/-- Emission condition for the config_drive fragment. -/
theorem configDriveSeg_eq_empty_iff (s : Server) :
    configDriveSeg s = "" ↔ s.ConfigDrive = false := by
  cases hc : s.ConfigDrive
  · simp [configDriveSeg, hc]
  · simp only [configDriveSeg, hc, if_pos rfl]
    exact iff_of_false (by decide) (by simp)

/-- Emission condition for the min_count fragment. -/
theorem minCountSeg_eq_empty_iff (s : Server) :
    minCountSeg s = "" ↔ ¬s.MinCount > 0 := by
  by_cases h : s.MinCount > 0
  · simp only [minCountSeg, if_pos h]
    exact iff_of_false (append_left_ne_empty _ _ (by decide)) (by simpa using h)
  · simp [minCountSeg, h]

/-- Emission condition for the max_count fragment. -/
theorem maxCountSeg_eq_empty_iff (s : Server) :
    maxCountSeg s = "" ↔ ¬s.MaxCount > 0 := by
  by_cases h : s.MaxCount > 0
  · simp only [maxCountSeg, if_pos h]
    exact iff_of_false (append_left_ne_empty _ _ (by decide)) (by simpa using h)
  · simp [maxCountSeg, h]

/-- Emission condition for the user_data fragment. -/
theorem userDataSeg_eq_empty_iff (s : Server) :
    userDataSeg s = "" ↔ s.UserData = "" := by
  rcases eq_or_ne s.UserData "" with h | h
  · simp [userDataSeg, h]
  · simp only [userDataSeg, if_pos h]
    exact iff_of_false (append_left_ne_empty _ _ (by decide)) h

/-- Emission condition for the metadata fragment. -/
theorem metadataSeg_eq_empty_iff (s : Server) :
    metadataSeg s = "" ↔ s.Metadata = [] := by
  rcases eq_or_ne s.Metadata ([] : List (String × String)) with h | h
  · simp [metadataSeg, h]
  · have hlen : s.Metadata.length > 0 := List.length_pos.mpr h
    simp only [metadataSeg, if_pos hlen]
    exact iff_of_false (append_left_ne_empty _ _ (by decide)) h

/-- Emission condition for the security_groups fragment. -/
theorem securityGroupsSeg_eq_empty_iff (s : Server) :
    securityGroupsSeg s = "" ↔ s.SecurityGroups = [] := by
  rcases eq_or_ne s.SecurityGroups ([] : List IDLink) with h | h
  · simp [securityGroupsSeg, h]
  · have hlen : s.SecurityGroups.length > 0 := List.length_pos.mpr h
    simp only [securityGroupsSeg, if_pos hlen]
    exact iff_of_false (append_left_ne_empty _ _ (by decide)) h

/-- Lexicographic comparison of metadata entries, used to state the fixed,
order-independent normalization of map iteration. -/
def mdLe (p q : String × String) : Prop :=
  p.1 < q.1 ∨ (p.1 = q.1 ∧ p.2 ≤ q.2)

instance : DecidableRel mdLe := fun p q =>
  decidable_of_iff (p.1 < q.1 ∨ (p.1 = q.1 ∧ p.2 ≤ q.2)) Iff.rfl

instance : IsTotal (String × String) mdLe where
  total p q := by
    rcases lt_trichotomy p.1 q.1 with h | h | h
    · exact Or.inl (Or.inl h)
    · rcases le_total p.2 q.2 with h2 | h2
      · exact Or.inl (Or.inr ⟨h, h2⟩)
      · exact Or.inr (Or.inr ⟨h.symm, h2⟩)
    · exact Or.inr (Or.inl h)

instance : IsTrans (String × String) mdLe where
  trans p q r hpq hqr := by
    rcases hpq with h1 | h1
    · rcases hqr with h2 | h2
      · exact Or.inl (h1.trans h2)
      · exact Or.inl (lt_of_lt_of_le h1 (le_of_eq h2.1))
    · rcases hqr with h2 | h2
      · exact Or.inl (lt_of_le_of_lt (le_of_eq h1.1) h2)
      · exact Or.inr ⟨h1.1.trans h2.1, h1.2.trans h2.2⟩

instance : IsAntisymm (String × String) mdLe where
  antisymm p q hpq hqp := by
    have hk : p.1 = q.1 := by
      rcases hpq with h1 | h1
      · rcases hqp with h2 | h2
        · exact absurd (h1.trans h2) (lt_irrefl _)
        · exact h2.1.symm
      · exact h1.1
    have hv : p.2 = q.2 := by
      rcases hpq with h1 | h1
      · exact absurd h1 (by rw [hk]; exact lt_irrefl _)
      · rcases hqp with h2 | h2
        · exact absurd h2 (by rw [hk]; exact lt_irrefl _)
        · exact le_antisymm h1.2 h2.2
    exact Prod.ext hk hv

/-- Normalization of the metadata iteration order: sort entries by mdLe. -/
def sortMeta (md : List (String × String)) : List (String × String) :=
  List.insertionSort mdLe md

/-- Server with its metadata iteration order normalized. -/
def normalizeServer (s : Server) : Server :=
  { s with Metadata := sortMeta s.Metadata }

/-- Two iteration orders of the same metadata map normalize identically. -/
theorem sortMeta_eq_of_perm {md₁ md₂ : List (String × String)}
    (h : md₁.Perm md₂) : sortMeta md₁ = sortMeta md₂ :=
  List.eq_of_perm_of_sorted
    ((List.perm_insertionSort mdLe md₁).trans
      (h.trans (List.perm_insertionSort mdLe md₂).symm))
    (List.sorted_insertionSort mdLe md₁) (List.sorted_insertionSort mdLe md₂)

/-- Base Server used for concrete instances: smallest flavor, the Ubuntu
Lucid image, a one-letter name and every optional field at its zero value. -/
def baseServer : Server :=
  { ConfigDrive := false, FlavorRef := 100, ImageRef := 1236, MaxCount := 0,
    MinCount := 0, Name := "n", Key := "", Personality := "", UserData := "",
    SecurityGroups := [], Metadata := [] }

/-- C1 (code bug): a Server that passes every validation but has a non-empty
Personality makes MarshalJSON emit a trailing comma after the personality
field, so the returned payload is not a syntactically well-formed object:
the separator dangles before the closing braces. -/
theorem c1_personality_dangling_separator :
    (Server.MarshalJSON { baseServer with Personality := "x" }).2 = none ∧
    (Server.MarshalJSON { baseServer with Personality := "x" }).1 =
      "\x7b\"server\":\x7b\"flavorRef\":100,\"imageRef\":1236,\"name\":\"n\",\"personality\":\"x\",\x7d\x7d" ∧
    jsonValid ((Server.MarshalJSON { baseServer with Personality := "x" }).1) = false := by
  decide

/-- C2 (code bug): with UserData equal to hello the emitted user_data value
is the empty string, not the standard base64 encoding aGVsbG8= of the raw
bytes, because the Go code passes the destination and source of
base64.StdEncoding.Encode swapped and a zero-length destination slice. -/
theorem c2_userdata_not_base64 :
    (Server.MarshalJSON { baseServer with UserData := "hello" }).1 =
      "\x7b\"server\":\x7b\"flavorRef\":100,\"imageRef\":1236,\"name\":\"n\",\"user_data\": \"\",\x7d\x7d" ∧
    base64EncodeBytes (asciiBytes ("hello")) = ("aGVsbG8=").data ∧
    occursIn (("aGVsbG8=").data)
      (((Server.MarshalJSON { baseServer with UserData := "hello" }).1).data) = false := by
  decide

/-- C6: with metadata holding exactly the entry role to web and every other
optional field empty or zero, the payload is exactly the required fields
followed by a properly closed one-entry metadata object, it is well-formed,
and none of the other optional field names occurs anywhere in it. -/
theorem c6_single_metadata_entry :
    Server.MarshalJSON { baseServer with Metadata := [("role", "web")] } =
      ("\x7b\"server\":\x7b\"flavorRef\":100,\"imageRef\":1236,\"name\":\"n\",\"metadata\":\x7b\"role\": \"web\"\x7d\x7d\x7d",
        none) ∧
    jsonValid ((Server.MarshalJSON { baseServer with Metadata := [("role", "web")] }).1) = true ∧
    occursIn (("\"personality\"").data)
      (((Server.MarshalJSON { baseServer with Metadata := [("role", "web")] }).1).data) = false ∧
    occursIn (("\"key_name\"").data)
      (((Server.MarshalJSON { baseServer with Metadata := [("role", "web")] }).1).data) = false ∧
    occursIn (("\"min_count\"").data)
      (((Server.MarshalJSON { baseServer with Metadata := [("role", "web")] }).1).data) = false ∧
    occursIn (("\"max_count\"").data)
      (((Server.MarshalJSON { baseServer with Metadata := [("role", "web")] }).1).data) = false ∧
    occursIn (("\"user_data\"").data)
      (((Server.MarshalJSON { baseServer with Metadata := [("role", "web")] }).1).data) = false ∧
    occursIn (("\"security_groups\"").data)
      (((Server.MarshalJSON { baseServer with Metadata := [("role", "web")] }).1).data) = false ∧
    occursIn (("\"config_drive\"").data)
      (((Server.MarshalJSON { baseServer with Metadata := [("role", "web")] }).1).data) = false := by
  decide

/-- C7: with two security groups named default and web, the payload carries
a well-formed two-element array of single-field name objects in sequence
order, one separator between them, none trailing, closed exactly once. -/
theorem c7_two_security_groups :
    Server.MarshalJSON
        { baseServer with SecurityGroups := [⟨"default", "", []⟩, ⟨"web", "", []⟩] } =
      ("\x7b\"server\":\x7b\"flavorRef\":100,\"imageRef\":1236,\"name\":\"n\",\"security_groups\":[\x7b\"name\": \"default\"\x7d,\x7b\"name\": \"web\"\x7d]\x7d\x7d",
        none) ∧
    jsonValid
      ((Server.MarshalJSON
        { baseServer with SecurityGroups := [⟨"default", "", []⟩, ⟨"web", "", []⟩] }).1) = true := by
  decide

/-- C3: validation is fail-fast with the first violation winning, in the
order flavor, image, name, personality; every failure returns the empty
payload with the matching typed error, and CreateServer then returns that
error after zero transport calls. -/
theorem c3_failfast_validation (s : Server) :
    (s.FlavorRef < 100 ∨ s.FlavorRef > 105 →
      s.MarshalJSON = ("", some "Flavor Reference refers to a non-existant flavour.")) ∧
    (¬(s.FlavorRef < 100 ∨ s.FlavorRef > 105) → s.ImageRef = 0 →
      s.MarshalJSON = ("", some "An image name is required.")) ∧
    (¬(s.FlavorRef < 100 ∨ s.FlavorRef > 105) → ¬s.ImageRef = 0 → s.Name = "" →
      s.MarshalJSON = ("", some "A name is required")) ∧
    (¬(s.FlavorRef < 100 ∨ s.FlavorRef > 105) → ¬s.ImageRef = 0 → ¬s.Name = "" →
      goLen s.Personality > 255 →
      s.MarshalJSON = ("", some "Server\x27s personality cannot have >255 bytes.")) ∧
    (∀ e, (s.MarshalJSON).2 = some e →
      (s.MarshalJSON).1 = "" ∧ ∀ t, CreateServer t s = (Except.error e, 0)) := by
  refine ⟨?_, ?_, ?_, ?_, ?_⟩
  · intro h1; rw [MarshalJSON_eq, if_pos h1]
  · intro h1 h2; rw [MarshalJSON_eq, if_neg h1, if_pos h2]
  · intro h1 h2 h3; rw [MarshalJSON_eq, if_neg h1, if_neg h2, if_pos h3]
  · intro h1 h2 h3 h4; rw [MarshalJSON_eq, if_neg h1, if_neg h2, if_neg h3, if_pos h4]
  · intro e he
    by_cases h1 : s.FlavorRef < 100 ∨ s.FlavorRef > 105
    · have hm : s.MarshalJSON =
          ("", some "Flavor Reference refers to a non-existant flavour.") := by
        rw [MarshalJSON_eq, if_pos h1]
      rw [hm] at he
      simp only [Option.some.injEq] at he
      subst he
      exact ⟨by rw [hm], fun t => by simp [CreateServer, hm]⟩
    · by_cases h2 : s.ImageRef = 0
      · have hm : s.MarshalJSON = ("", some "An image name is required.") := by
          rw [MarshalJSON_eq, if_neg h1, if_pos h2]
        rw [hm] at he
        simp only [Option.some.injEq] at he
        subst he
        exact ⟨by rw [hm], fun t => by simp [CreateServer, hm]⟩
      · by_cases h3 : s.Name = ""
        · have hm : s.MarshalJSON = ("", some "A name is required") := by
            rw [MarshalJSON_eq, if_neg h1, if_neg h2, if_pos h3]
          rw [hm] at he
          simp only [Option.some.injEq] at he
          subst he
          exact ⟨by rw [hm], fun t => by simp [CreateServer, hm]⟩
        · by_cases h4 : goLen s.Personality > 255
          · have hm : s.MarshalJSON =
                ("", some "Server\x27s personality cannot have >255 bytes.") := by
              rw [MarshalJSON_eq, if_neg h1, if_neg h2, if_neg h3, if_pos h4]
            rw [hm] at he
            simp only [Option.some.injEq] at he
            subst he
            exact ⟨by rw [hm], fun t => by simp [CreateServer, hm]⟩
          · have hm : s.MarshalJSON = (payloadOf s, none) := MarshalJSON_ok s h1 h2 h3 h4
            rw [hm] at he
            simp at he

/-- Witness for c3_failfast_validation at a Server whose flavor is invalid. -/
theorem c3_failfast_validation_witness :
    (({ baseServer with FlavorRef := 0 } : Server).FlavorRef < 100 ∨
      ({ baseServer with FlavorRef := 0 } : Server).FlavorRef > 105) ∧
    Server.MarshalJSON { baseServer with FlavorRef := 0 } =
      ("", some "Flavor Reference refers to a non-existant flavour.") :=
  ⟨by decide, (c3_failfast_validation { baseServer with FlavorRef := 0 }).1 (by decide)⟩


/-- Server with an invalid flavor and a 256-byte personality. -/
def longPersonalityServer : Server := { baseServer with FlavorRef := 0, Personality := String.mk (List.replicate 256 'a') }

/-- Server passing validation with a personality of exactly 255 bytes. -/
def capPersonalityServer : Server := { baseServer with Personality := String.mk (List.replicate 255 'a') }

set_option maxRecDepth 4096 in
/-- C4 counterexample: a request whose personality exceeds 255 bytes but
whose flavor is also invalid does fail, yet with the flavor error, not the
personality error, because validation is fail-fast in source order. -/
theorem c4_counterexample :
    goLen longPersonalityServer.Personality > 255 ∧
    Server.MarshalJSON longPersonalityServer =
      ("", some "Flavor Reference refers to a non-existant flavour.") ∧
    ("Flavor Reference refers to a non-existant flavour." : String) ≠
      "Server\x27s personality cannot have >255 bytes." := by
  decide

/-- C4 as amended: on a request passing the earlier flavor, image and name
checks, a personality over 255 bytes fails with the personality error, and
a personality of exactly 255 bytes succeeds with its literal bytes emitted
verbatim as the value of the personality field. -/
theorem c4_personality_cap (s : Server)
    (h1 : ¬(s.FlavorRef < 100 ∨ s.FlavorRef > 105)) (h2 : ¬s.ImageRef = 0)
    (h3 : ¬s.Name = "") :
    (goLen s.Personality > 255 →
      s.MarshalJSON = ("", some "Server\x27s personality cannot have >255 bytes.")) ∧
    (goLen s.Personality = 255 →
      (s.MarshalJSON).2 = none ∧
      ∃ u v, (s.MarshalJSON).1 =
        u ++ (",\"personality\":\"" ++ s.Personality ++ "\",") ++ v) := by
  constructor
  · intro h4
    rw [MarshalJSON_eq, if_neg h1, if_neg h2, if_neg h3, if_pos h4]
  · intro h255
    have h4 : ¬goLen s.Personality > 255 := by omega
    have hne : s.Personality ≠ "" := by
      intro he
      rw [he] at h255
      exact absurd h255 (by decide)
    rw [MarshalJSON_ok s h1 h2 h3 h4]
    refine ⟨rfl, requiredPrefix s,
      keySeg s ++ configDriveSeg s ++ minCountSeg s ++ maxCountSeg s ++
        userDataSeg s ++ metadataSeg s ++ securityGroupsSeg s ++ "\x7d\x7d", ?_⟩
    have hp : personalitySeg s = ",\"personality\":\"" ++ s.Personality ++ "\"," := by
      simp [personalitySeg, hne]
    apply String.ext
    simp [payloadOf, hp, String.data_append, List.append_assoc]

/-- Witness for c4_personality_cap at a Server with a 255-byte personality. -/
theorem c4_personality_cap_witness :
    (¬(capPersonalityServer.FlavorRef < 100 ∨ capPersonalityServer.FlavorRef > 105) ∧
      ¬capPersonalityServer.ImageRef = 0 ∧ ¬capPersonalityServer.Name = "") ∧
    ((goLen capPersonalityServer.Personality > 255 →
      Server.MarshalJSON capPersonalityServer =
        ("", some "Server\x27s personality cannot have >255 bytes.")) ∧
    (goLen capPersonalityServer.Personality = 255 →
      (Server.MarshalJSON capPersonalityServer).2 = none ∧
      ∃ u v, (Server.MarshalJSON capPersonalityServer).1 =
        u ++ (",\"personality\":\"" ++ capPersonalityServer.Personality ++ "\",") ++ v)) :=
  ⟨⟨by decide, by decide, by decide⟩,
    c4_personality_cap capPersonalityServer (by decide) (by decide) (by decide)⟩

/-- C5: on a Server passing every validation, the payload is exactly the
required prefix followed by the optional fragments, and each optional
fragment is empty exactly when its emit condition fails: personality and
key_name and user_data when the string is empty, config_drive when the flag
is false, min_count and max_count when the count is not positive, metadata
and security_groups when the collection is empty, so an empty collection is
omitted entirely rather than emitted as an empty collection. -/
theorem c5_optional_emission (s : Server)
    (h1 : ¬(s.FlavorRef < 100 ∨ s.FlavorRef > 105)) (h2 : ¬s.ImageRef = 0)
    (h3 : ¬s.Name = "") (h4 : ¬goLen s.Personality > 255) :
    (s.MarshalJSON).2 = none ∧
    (s.MarshalJSON).1 =
      requiredPrefix s ++ personalitySeg s ++ keySeg s ++ configDriveSeg s ++
        minCountSeg s ++ maxCountSeg s ++ userDataSeg s ++ metadataSeg s ++
        securityGroupsSeg s ++ "\x7d\x7d" ∧
    (personalitySeg s = "" ↔ s.Personality = "") ∧
    (keySeg s = "" ↔ s.Key = "") ∧
    (configDriveSeg s = "" ↔ s.ConfigDrive = false) ∧
    (minCountSeg s = "" ↔ ¬s.MinCount > 0) ∧
    (maxCountSeg s = "" ↔ ¬s.MaxCount > 0) ∧
    (userDataSeg s = "" ↔ s.UserData = "") ∧
    (metadataSeg s = "" ↔ s.Metadata = []) ∧
    (securityGroupsSeg s = "" ↔ s.SecurityGroups = []) := by
  rw [MarshalJSON_ok s h1 h2 h3 h4]
  exact ⟨rfl, rfl, personalitySeg_eq_empty_iff s, keySeg_eq_empty_iff s,
    configDriveSeg_eq_empty_iff s, minCountSeg_eq_empty_iff s,
    maxCountSeg_eq_empty_iff s, userDataSeg_eq_empty_iff s,
    metadataSeg_eq_empty_iff s, securityGroupsSeg_eq_empty_iff s⟩

/-- Server with every optional field set, used as the c5 witness input. -/
def allOptionalServer : Server := { baseServer with Personality := "p", Key := "k", ConfigDrive := true, MinCount := 1, MaxCount := 2, UserData := "u", Metadata := [("role", "web")], SecurityGroups := [⟨"default", "", []⟩] }

/-- Witness for c5_optional_emission at a Server with every optional field set. -/
theorem c5_optional_emission_witness :
    (¬(allOptionalServer.FlavorRef < 100 ∨ allOptionalServer.FlavorRef > 105) ∧
      ¬allOptionalServer.ImageRef = 0 ∧ ¬allOptionalServer.Name = "" ∧
      ¬goLen allOptionalServer.Personality > 255) ∧
    ((Server.MarshalJSON allOptionalServer).2 = none ∧
    (Server.MarshalJSON allOptionalServer).1 =
      requiredPrefix allOptionalServer ++ personalitySeg allOptionalServer ++
        keySeg allOptionalServer ++ configDriveSeg allOptionalServer ++
        minCountSeg allOptionalServer ++ maxCountSeg allOptionalServer ++
        userDataSeg allOptionalServer ++ metadataSeg allOptionalServer ++
        securityGroupsSeg allOptionalServer ++ "\x7d\x7d" ∧
    (personalitySeg allOptionalServer = "" ↔ allOptionalServer.Personality = "") ∧
    (keySeg allOptionalServer = "" ↔ allOptionalServer.Key = "") ∧
    (configDriveSeg allOptionalServer = "" ↔ allOptionalServer.ConfigDrive = false) ∧
    (minCountSeg allOptionalServer = "" ↔ ¬allOptionalServer.MinCount > 0) ∧
    (maxCountSeg allOptionalServer = "" ↔ ¬allOptionalServer.MaxCount > 0) ∧
    (userDataSeg allOptionalServer = "" ↔ allOptionalServer.UserData = "") ∧
    (metadataSeg allOptionalServer = "" ↔ allOptionalServer.Metadata = []) ∧
    (securityGroupsSeg allOptionalServer = "" ↔ allOptionalServer.SecurityGroups = [])) :=
  ⟨⟨by decide, by decide, by decide, by decide⟩,
    c5_optional_emission allOptionalServer (by decide) (by decide) (by decide) (by decide)⟩

/-- C8: on a Server passing every validation, the payload opens with the
three required fields flavorRef, imageRef, name in that fixed order, and
every optional fragment follows them. -/
theorem c8_required_fields_first (s : Server)
    (h1 : ¬(s.FlavorRef < 100 ∨ s.FlavorRef > 105)) (h2 : ¬s.ImageRef = 0)
    (h3 : ¬s.Name = "") (h4 : ¬goLen s.Personality > 255) :
    (s.MarshalJSON).2 = none ∧
    (s.MarshalJSON).1 =
      requiredPrefix s ++
        (personalitySeg s ++ keySeg s ++ configDriveSeg s ++ minCountSeg s ++
          maxCountSeg s ++ userDataSeg s ++ metadataSeg s ++
          securityGroupsSeg s ++ "\x7d\x7d") ∧
    requiredPrefix s =
      "\x7b\"server\":\x7b" ++ "\"flavorRef\":" ++ toString s.FlavorRef ++
        ",\"imageRef\":" ++ toString s.ImageRef ++ ",\"name\":\"" ++ s.Name ++ "\"" := by
  rw [MarshalJSON_ok s h1 h2 h3 h4]
  refine ⟨rfl, ?_, rfl⟩
  apply String.ext
  simp [payloadOf, String.data_append, List.append_assoc]

/-- Witness for c8_required_fields_first at the base Server. -/
theorem c8_required_fields_first_witness :
    (¬(baseServer.FlavorRef < 100 ∨ baseServer.FlavorRef > 105) ∧
      ¬baseServer.ImageRef = 0 ∧ ¬baseServer.Name = "" ∧
      ¬goLen baseServer.Personality > 255) ∧
    ((Server.MarshalJSON baseServer).2 = none ∧
    (Server.MarshalJSON baseServer).1 =
      requiredPrefix baseServer ++
        (personalitySeg baseServer ++ keySeg baseServer ++
          configDriveSeg baseServer ++ minCountSeg baseServer ++
          maxCountSeg baseServer ++ userDataSeg baseServer ++
          metadataSeg baseServer ++ securityGroupsSeg baseServer ++ "\x7d\x7d") ∧
    requiredPrefix baseServer =
      "\x7b\"server\":\x7b" ++ "\"flavorRef\":" ++ toString baseServer.FlavorRef ++
        ",\"imageRef\":" ++ toString baseServer.ImageRef ++ ",\"name\":\"" ++
        baseServer.Name ++ "\"") :=
  ⟨⟨by decide, by decide, by decide, by decide⟩,
    c8_required_fields_first baseServer (by decide) (by decide) (by decide) (by decide)⟩

/-- C9: encoding is a pure function, so on the same Server value it always
returns the same output; the only nondeterminism in the Go code is the map
iteration order over Metadata, and under the fixed normalization that sorts
the metadata entries, any two iteration orders of the same map encode to
byte-identical output, with the error result identical even without
normalization. -/
theorem c9_deterministic_encoding (s : Server) (md₁ md₂ : List (String × String))
    (h : md₁.Perm md₂) :
    Server.MarshalJSON (normalizeServer { s with Metadata := md₁ }) =
      Server.MarshalJSON (normalizeServer { s with Metadata := md₂ }) ∧
    (Server.MarshalJSON { s with Metadata := md₁ }).2 =
      (Server.MarshalJSON { s with Metadata := md₂ }).2 := by
  have hnorm : normalizeServer { s with Metadata := md₁ } =
      normalizeServer { s with Metadata := md₂ } := by
    simp [normalizeServer, sortMeta_eq_of_perm h]
  refine ⟨by rw [hnorm], ?_⟩
  rw [MarshalJSON_snd, MarshalJSON_snd]

/-- Witness for c9_deterministic_encoding on two iteration orders of a
two-entry metadata map. -/
theorem c9_deterministic_encoding_witness :
    (([(("b" : String), ("2" : String)), (("a" : String), ("1" : String))]).Perm
      ([(("a" : String), ("1" : String)), (("b" : String), ("2" : String))])) ∧
    (Server.MarshalJSON (normalizeServer { baseServer with Metadata := [("b", "2"), ("a", "1")] }) =
      Server.MarshalJSON (normalizeServer { baseServer with Metadata := [("a", "1"), ("b", "2")] }) ∧
    (Server.MarshalJSON { baseServer with Metadata := [("b", "2"), ("a", "1")] }).2 =
      (Server.MarshalJSON { baseServer with Metadata := [("a", "1"), ("b", "2")] }).2) :=
  ⟨List.Perm.swap _ _ _,
    c9_deterministic_encoding baseServer [("b", "2"), ("a", "1")]
      [("a", "1"), ("b", "2")] (List.Perm.swap _ _ _)⟩

/-- Server whose name holds one backslash, all validations passing. -/
def backslashNameServer : Server := { baseServer with Name := "a\\b" }

/-- Server whose name holds one double quote, all validations passing. -/
def quoteNameServer : Server := { baseServer with Name := "a\"b" }

/-- C10 counterexample: a name holding a backslash that happens to spell a
valid JSON escape still yields a well-formed payload, so well-formedness
does not require the absence of backslashes in string fields. -/
theorem c10_counterexample :
    ('\\' ∈ backslashNameServer.Name.data) ∧
    (Server.MarshalJSON backslashNameServer).2 = none ∧
    jsonValid ((Server.MarshalJSON backslashNameServer).1) = true := by
  decide

/-- C10 as amended: string fields are interpolated verbatim with no escaping
of any kind, here witnessed for the name field on every Server passing
validation; consequently well-formedness is not guaranteed once a string
field holds a double quote or backslash: an embedded double quote in the
name yields a malformed payload, though a backslash spelling a valid escape
can still parse. -/
theorem c10_verbatim_interpolation :
    (∀ s : Server, ¬(s.FlavorRef < 100 ∨ s.FlavorRef > 105) → ¬s.ImageRef = 0 →
      ¬s.Name = "" → ¬goLen s.Personality > 255 →
      ∃ u v, (s.MarshalJSON).1 = u ++ s.Name ++ v) ∧
    ((Server.MarshalJSON quoteNameServer).2 = none ∧
      jsonValid ((Server.MarshalJSON quoteNameServer).1) = false) := by
  constructor
  · intro s h1 h2 h3 h4
    rw [MarshalJSON_ok s h1 h2 h3 h4]
    refine ⟨"\x7b\"server\":\x7b" ++ "\"flavorRef\":" ++ toString s.FlavorRef ++
      ",\"imageRef\":" ++ toString s.ImageRef ++ ",\"name\":\"",
      "\"" ++ personalitySeg s ++ keySeg s ++ configDriveSeg s ++ minCountSeg s ++
        maxCountSeg s ++ userDataSeg s ++ metadataSeg s ++ securityGroupsSeg s ++
        "\x7d\x7d", ?_⟩
    apply String.ext
    simp [payloadOf, requiredPrefix, String.data_append, List.append_assoc]
  · exact ⟨by decide, by decide⟩

/-- Witness for the universally quantified part of c10_verbatim_interpolation
at the base Server. -/
theorem c10_verbatim_interpolation_witness :
    (¬(baseServer.FlavorRef < 100 ∨ baseServer.FlavorRef > 105) ∧
      ¬baseServer.ImageRef = 0 ∧ ¬baseServer.Name = "" ∧
      ¬goLen baseServer.Personality > 255) ∧
    (∃ u v, (Server.MarshalJSON baseServer).1 = u ++ baseServer.Name ++ v) :=
  ⟨⟨by decide, by decide, by decide, by decide⟩,
    c10_verbatim_interpolation.1 baseServer (by decide) (by decide) (by decide) (by decide)⟩
